import Mathlib

/-
Verification development for the burpy XML-to-HTML converter
(single source file parse_xml.py).

The Python source is shallowly embedded below.  Strings are modelled as
Lean strings (lists of unicode characters), bytes as natural numbers with
explicit < 256 bounds, and the fallible standard-library collaborators
(base64.b64decode with validate=True, bytes.decode("utf-8")) as
Option-returning functions following their documented strict behaviour.
-/

/-- Whitespace predicate matching the characters Python treats as
whitespace for str.strip() and for the regular-expression class backslash-s
on text strings (ASCII whitespace, the C1 separators, NEL, NBSP and the
Unicode space characters). -/
def pyIsSpace (c : Char) : Bool :=
  c == ' ' || c == '\t' || c == '\n' || c == '\r' || c == '\x0b' || c == '\x0c' ||
  c == '\x1c' || c == '\x1d' || c == '\x1e' || c == '\x1f' || c == '\x85' || c == '\xa0' ||
  c == ' ' || (' ' ≤ c && c ≤ ' ') || c == ' ' || c == ' ' ||
  c == ' ' || c == ' ' || c == '　'

/-- Strict Base64-alphabet character, the class [A-Za-z0-9+/=] of the
source's regular expressions (padding included). -/
def isB64Char (c : Char) : Bool :=
  (65 ≤ c.toNat && c.toNat ≤ 90) || (97 ≤ c.toNat && c.toNat ≤ 122) ||
  (48 ≤ c.toNat && c.toNat ≤ 57) || c == '+' || c == '/' || c == '='

/-- Python str.strip(): drop leading and trailing whitespace characters. -/
def stripChars (l : List Char) : List Char :=
  ((l.dropWhile pyIsSpace).reverse.dropWhile pyIsSpace).reverse

/-- Python str.strip() on a Lean string. -/
def pyStrip (s : String) : String :=
  String.mk (stripChars s.data)

/-- Embedding of is_likely_base64 from parse_xml.py.  The source strips the
input, rejects empty or short strings, requires every remaining character
to be Base64-alphabet or whitespace and the length after removing only the
characters LF and CR (str.replace on the stripped string) to be a multiple
of 4, and finally tests valid_chars / max(1, len(s)) > 0.9 on the stripped
string.  The float comparison is modelled by the exact rational comparison
10 * valid > 9 * max 1 len, which agrees with IEEE double evaluation for
every feasible string length. -/
def is_likely_base64 (s : String) : Bool :=
  if (stripChars s.data).isEmpty then false
  else if (stripChars s.data).length < 8 then false
  else if (stripChars s.data).all (fun c => isB64Char c || pyIsSpace c)
        && (((stripChars s.data).filter (fun c => !(c == '\n' || c == '\r'))).length % 4 == 0) then
    decide (10 * ((stripChars s.data).filter isB64Char).length > 9 * max 1 (stripChars s.data).length)
  else false

/-- Character of the standard Base64 alphabet for a 6-bit value: capital
letters for 0 to 25, small letters for 26 to 51, digits for 52 to 61, then
plus and slash. -/
def sextetChar (n : Nat) : Char :=
  if n ≤ 25 then Char.ofNat (65 + n)
  else if n ≤ 51 then Char.ofNat (97 + (n - 26))
  else if n ≤ 61 then Char.ofNat (48 + (n - 52))
  else if n = 62 then '+'
  else '/'

/-- Value of a Base64 alphabet character (padding excluded), as used by the
strict decoder. -/
def b64digit (c : Char) : Option Nat :=
  if 65 ≤ c.toNat ∧ c.toNat ≤ 90 then some (c.toNat - 65)
  else if 97 ≤ c.toNat ∧ c.toNat ≤ 122 then some (c.toNat - 71)
  else if 48 ≤ c.toNat ∧ c.toNat ≤ 57 then some (c.toNat + 4)
  else if c = '+' then some 62
  else if c = '/' then some 63
  else none

/-- Option-valued map used by the Base64 body decoder. -/
def mapOpt (f : Char → Option Nat) : List Char → Option (List Nat)
  | [] => some []
  | c :: rest =>
    match f c, mapOpt f rest with
    | some v, some vs => some (v :: vs)
    | _, _ => none

/-- Reassemble bytes from a list of 6-bit values, where a trailing group of
two values carries one byte and a trailing group of three carries two
(excess low bits discarded, as Python's binascii does). -/
def sextetsToBytes : List Nat → List Nat
  | a :: b :: c :: d :: rest =>
    (a * 4 + b / 16) :: ((b % 16) * 16 + c / 4) :: ((c % 4) * 64 + d) :: sextetsToBytes rest
  | [a, b, c] => [a * 4 + b / 16, (b % 16) * 16 + c / 4]
  | [a, b] => [a * 4 + b / 16]
  | [_] => []
  | [] => []

/-- Strict Base64 parse of a character list, returning the 6-bit values of
the body.  Models base64.b64decode(s, validate=True): the input must be
alphabet characters followed by at most two padding characters, and its
total length must be a multiple of four; anything else raises, i.e. is
None here. -/
def parseB64 (cs : List Char) : Option (List Nat) :=
  if (cs.dropWhile (fun c => !(c == '='))).all (fun c => c == '=') ∧
      (cs.dropWhile (fun c => !(c == '='))).length ≤ 2 ∧ cs.length % 4 = 0 then
    mapOpt b64digit (cs.takeWhile (fun c => !(c == '=')))
  else none

/-- Strict Base64 decoding of a string to bytes; None models the exception. -/
def b64decodeStr (s : String) : Option (List Nat) :=
  (parseB64 s.data).map sextetsToBytes

/-- Standard Base64 encoding of a byte list (python base64.b64encode):
groups of three bytes become four alphabet characters, a trailing group of
two becomes three characters and one padding, a trailing single byte two
characters and two paddings. -/
def b64encodeBytes : List Nat → List Char
  | x :: y :: z :: rest =>
    sextetChar (x / 4) :: sextetChar ((x % 4) * 16 + y / 16) ::
    sextetChar ((y % 16) * 4 + z / 64) :: sextetChar (z % 64) :: b64encodeBytes rest
  | [x, y] => [sextetChar (x / 4), sextetChar ((x % 4) * 16 + y / 16), sextetChar ((y % 16) * 4), '=']
  | [x] => [sextetChar (x / 4), sextetChar ((x % 4) * 16), '=', '=']
  | [] => []

/-- Standard Base64 encoding of bytes as a string. -/
def b64encode (bs : List Nat) : String := String.mk (b64encodeBytes bs)

/-- The 6-bit values of the Base64 body that encodes a byte list. -/
def bytesToSextets : List Nat → List Nat
  | x :: y :: z :: rest =>
    (x / 4) :: ((x % 4) * 16 + y / 16) :: ((y % 16) * 4 + z / 64) :: (z % 64) :: bytesToSextets rest
  | [x, y] => [x / 4, (x % 4) * 16 + y / 16, (y % 16) * 4]
  | [x] => [x / 4, (x % 4) * 16]
  | [] => []

/-- Padding characters appended by the Base64 encoder. -/
def b64pad : List Nat → List Char
  | _ :: _ :: _ :: rest => b64pad rest
  | [_, _] => ['=']
  | [_] => ['=', '=']
  | [] => []

/-- Lowercase hexadecimal digit for a value below 16. -/
def hexDigitChar (n : Nat) : Char :=
  if n ≤ 9 then Char.ofNat (48 + n) else Char.ofNat (87 + n)

/-- Lowercase hexadecimal rendering of a byte list (python bytes.hex()). -/
def bytesToHexChars : List Nat → List Char
  | [] => []
  | b :: rest => hexDigitChar (b / 16) :: hexDigitChar (b % 16) :: bytesToHexChars rest

/-- Lowercase hexadecimal rendering as a string. -/
def bytesToHex (bs : List Nat) : String := String.mk (bytesToHexChars bs)

/-- Value of a lowercase hexadecimal digit. -/
def hexVal (c : Char) : Option Nat :=
  if 48 ≤ c.toNat ∧ c.toNat ≤ 57 then some (c.toNat - 48)
  else if 97 ≤ c.toNat ∧ c.toNat ≤ 102 then some (c.toNat - 87)
  else none

/-- Parse a lowercase hexadecimal character list back to bytes. -/
def hexCharsToBytes : List Char → Option (List Nat)
  | [] => some []
  | c :: d :: rest =>
    match hexVal c, hexVal d, hexCharsToBytes rest with
    | some x, some y, some bs => some ((x * 16 + y) :: bs)
    | _, _, _ => none
  | [_] => none

/-- Parse a hexadecimal string back to bytes. -/
def hexToBytes (s : String) : Option (List Nat) := hexCharsToBytes s.data

/-- Continuation byte of a UTF-8 sequence. -/
def isCont (b : Nat) : Bool := 0x80 ≤ b && b ≤ 0xBF

/-- Strict UTF-8 decoding of a byte list to a list of code points; None
models UnicodeDecodeError from bytes.decode("utf-8").  Overlong forms,
surrogates and values above 0x10FFFF are rejected through the ranges
allowed for the first continuation byte. -/
def utf8DecodeCp : List Nat → Option (List Nat)
  | [] => some []
  | b :: rest =>
    if b < 0x80 then (utf8DecodeCp rest).map (fun l => b :: l)
    else if 0xC2 ≤ b && b ≤ 0xDF then
      match rest with
      | c :: rest2 =>
        if isCont c then (utf8DecodeCp rest2).map (fun l => ((b - 0xC0) * 64 + (c - 0x80)) :: l)
        else none
      | [] => none
    else if 0xE0 ≤ b && b ≤ 0xEF then
      match rest with
      | c :: d :: rest2 =>
        if (if b == 0xE0 then 0xA0 ≤ c && c ≤ 0xBF
            else if b == 0xED then 0x80 ≤ c && c ≤ 0x9F
            else isCont c) && isCont d then
          (utf8DecodeCp rest2).map
            (fun l => ((b - 0xE0) * 4096 + (c - 0x80) * 64 + (d - 0x80)) :: l)
        else none
      | _ => none
    else if 0xF0 ≤ b && b ≤ 0xF4 then
      match rest with
      | c :: d :: e :: rest2 =>
        if (if b == 0xF0 then 0x90 ≤ c && c ≤ 0xBF
            else if b == 0xF4 then 0x80 ≤ c && c ≤ 0x8F
            else isCont c) && isCont d && isCont e then
          (utf8DecodeCp rest2).map
            (fun l => ((b - 0xF0) * 262144 + (c - 0x80) * 4096 + (d - 0x80) * 64 + (e - 0x80)) :: l)
        else none
      | _ => none
    else none

/-- Kind tag of a decoded payload, the second component returned by
try_decode_base64 and extract_node_text. -/
inductive Kind where
  | text
  | hex
  | raw
deriving DecidableEq, Repr

/-- String form of a kind tag, as it appears in the rendered badge. -/
def kindName : Kind → String
  | Kind.text => "text"
  | Kind.hex => "hex"
  | Kind.raw => "raw"

/-- Embedding of try_decode_base64 from parse_xml.py.  Whitespace is
removed (re.sub of one-or-more whitespace with the empty string), strict
Base64 decoding is attempted, then UTF-8 decoding of the bytes with a
lowercase-hex fallback; any decoding failure returns the original input
with the raw tag.  The function is total: no failure escapes. -/
def try_decode_base64 (s : String) : String × Kind :=
  match b64decodeStr (String.mk (s.data.filter (fun c => !pyIsSpace c))) with
  | none => (s, Kind.raw)
  | some bs =>
    match utf8DecodeCp bs with
    | some cps => (String.mk (cps.map Char.ofNat), Kind.text)
    | none => (bytesToHex bs, Kind.hex)

mutual

/-- XML node as exposed by the parsed document: an element with a tag,
attributes and children, or a text segment (CDATA included; BeautifulSoup
exposes both through .strings). -/
inductive XNode where
  | elem (tag : String) (attrs : List (String × String)) (children : XNodes)
  | text (s : String)

/-- Children sequence of an element, in document order. -/
inductive XNodes where
  | nil
  | cons (hd : XNode) (tl : XNodes)

end

mutual

/-- All descendant-or-self elements with the given tag, in document order
(soup.find_all semantics; the document root is modelled as the children
sequence, so the soup object itself is never a candidate). -/
def findAllNode (tag : String) : XNode → List XNode
  | XNode.text _ => []
  | XNode.elem t attrs cs =>
    (if t == tag then [XNode.elem t attrs cs] else []) ++ findAllNodes tag cs

/-- All elements with the given tag among a sequence of trees, in document
order. -/
def findAllNodes (tag : String) : XNodes → List XNode
  | XNodes.nil => []
  | XNodes.cons n tl => findAllNode tag n ++ findAllNodes tag tl

end

mutual

/-- Concatenation order of all text segments below a node (node.strings). -/
def nodeStrings : XNode → List String
  | XNode.text s => [s]
  | XNode.elem _ _ cs => nodeStringsList cs

/-- Text segments below a children sequence. -/
def nodeStringsList : XNodes → List String
  | XNodes.nil => []
  | XNodes.cons n tl => nodeStrings n ++ nodeStringsList tl

end

/-- Lowercasing of one character as needed for the encoding-attribute
comparison: ASCII uppercase letters map to their lowercase forms.  This
agrees with Python str.lower() on every string whose lowercase form could
equal the literal compared against. -/
def pyLowerChar (c : Char) : Char :=
  if 'A' ≤ c && c ≤ 'Z' then Char.ofNat (c.toNat + 32) else c

/-- Lowercasing of a string (str.lower restricted as above). -/
def pyLower (s : String) : String := String.mk (s.data.map pyLowerChar)

/-- Attribute lookup on a node (node.get). -/
def getAttr (name : String) (n : XNode) : Option String :=
  match n with
  | XNode.text _ => none
  | XNode.elem _ attrs _ => (attrs.find? (fun p => p.1 == name)).map (fun p => p.2)

/-- First descendant element with the given tag, excluding the node itself
(item.find semantics). -/
def findDesc (tag : String) (n : XNode) : Option XNode :=
  match n with
  | XNode.text _ => none
  | XNode.elem _ _ cs => (findAllNodes tag cs).head?

/-- Embedding of extract_node_text from parse_xml.py.  A None node yields
the (None, None) sentinel.  A node whose encoding attribute is non-empty
and case-insensitively equal to base64 is force-decoded; otherwise the
concatenated text is decoded only when is_likely_base64 accepts it, and is
returned stripped with the text tag when it does not. -/
def extract_node_text (node : Option XNode) : Option String × Option Kind :=
  match node with
  | none => (none, none)
  | some n =>
    let raw := String.join (nodeStrings n)
    if (match getAttr "encoding" n with
        | some e => !(e == "") && (pyLower e == "base64")
        | none => false) then
      let dk := try_decode_base64 raw
      (some dk.1, some dk.2)
    else if is_likely_base64 raw then
      let dk := try_decode_base64 raw
      (some dk.1, some dk.2)
    else
      (some (pyStrip raw), some Kind.text)

/-- Substitution applied by the HTML serializer to one character of text
content (BeautifulSoup minimal formatter: ampersand, less-than and
greater-than become entity references). -/
def escChar (c : Char) : List Char :=
  if c == '&' then ['&', 'a', 'm', 'p', ';']
  else if c == '<' then ['&', 'l', 't', ';']
  else if c == '>' then ['&', 'g', 't', ';']
  else [c]

/-- Escaped serialization of a text payload, character by character. -/
def escapeMinimal : List Char → List Char
  | [] => []
  | c :: rest => escChar c ++ escapeMinimal rest

/-- Character-data reading of serialized HTML text: entity references for
ampersand, less-than and greater-than are decoded, any other character
stands for itself. -/
def unescapeEnt : List Char → List Char
  | [] => []
  | '&' :: 'a' :: 'm' :: 'p' :: ';' :: rest => '&' :: unescapeEnt rest
  | '&' :: 'l' :: 't' :: ';' :: rest => '<' :: unescapeEnt rest
  | '&' :: 'g' :: 't' :: ';' :: rest => '>' :: unescapeEnt rest
  | c :: rest => c :: unescapeEnt rest

/-- Rendered request/response block, the abstract form of what add_block
in parse_xml.py appends to an entry: css class, title, optional kind
badge, the escaped preformatted payload, and the optional note line
reproducing the declared encoding attribute. -/
structure Block where
  cls : String
  title : String
  badge : Option String
  preHtml : List Char
  encodingNote : Option String
deriving DecidableEq, Repr

/-- Embedding of add_block from parse_xml.py.  A missing node produces no
block; otherwise the payload is decoded via extract_node_text, a badge is
attached when the kind differs from text, the payload is serialized
escaped inside the preformatted container, and a non-empty encoding
attribute is reproduced in a note line. -/
def add_block (titleText : String) (node : Option XNode) : Option Block :=
  match node with
  | none => none
  | some n =>
    let dk := extract_node_text (some n)
    some
      { cls := if titleText == "Request" then "req" else "resp"
        title := titleText
        badge :=
          match dk.2 with
          | some k => if k ≠ Kind.text then some (kindName k) else none
          | none => none
        preHtml := escapeMinimal (dk.1.getD "").data
        encodingNote :=
          match getAttr "encoding" n with
          | some e => if e ≠ "" then some ("Original node encoding attribute: " ++ e) else none
          | none => none }

/-- Result of the item-location strategy at the bottom of parse_xml.py:
a list of item containers, a list of positionally paired request/response
elements, or the informational no-data sentinel. -/
inductive Extraction where
  | items (l : List XNode)
  | paired (l : List (XNode × XNode))
  | noData

/-- Embedding of the item-extraction control flow of parse_xml.py: all
item elements if any exist; otherwise the concatenation of all attackitem,
row and requestitem matches; otherwise the positional zip of request and
response elements; otherwise the sentinel. -/
def extractItems (doc : XNodes) : Extraction :=
  if (findAllNodes "item" doc).isEmpty then
    if ((findAllNodes "attackitem" doc ++ findAllNodes "row" doc) ++
        findAllNodes "requestitem" doc).isEmpty then
      if ((findAllNodes "request" doc).zip (findAllNodes "response" doc)).isEmpty then
        Extraction.noData
      else
        Extraction.paired ((findAllNodes "request" doc).zip (findAllNodes "response" doc))
    else
      Extraction.items ((findAllNodes "attackitem" doc ++ findAllNodes "row" doc) ++
        findAllNodes "requestitem" doc)
  else
    Extraction.items (findAllNodes "item" doc)

/-- Usage line printed by parse_xml.py when the argument count is wrong. -/
def usageMsg : String :=
  "Usage: python3 burp_to_html_decode.py <intruder_xml_file> <output_html_file>"

/-- Observable outcome of one process run: exit code, lines written to
standard output and to standard error, and whether any file was accessed. -/
structure Outcome where
  exitCode : Nat
  stdoutLines : List String
  stderrLines : List String
  fileAccess : Bool
deriving DecidableEq, Repr

/-- Embedding of the top-level control flow of parse_xml.py around the
pipeline: sys.argv holds the interpreter-visible program name plus the
positional arguments, so a count different from three prints the usage
line (plain print, hence standard output) and exits with code 1 before
touching any file; a run that completes writes the output file and prints
the confirmation naming it, exiting with code 0.  The pipeline itself is
abstracted to its successful completion. -/
def cliMain (argv : List String) : Outcome :=
  if argv.length ≠ 3 then
    { exitCode := 1, stdoutLines := [usageMsg], stderrLines := [], fileAccess := false }
  else
    { exitCode := 0, stdoutLines := ["Wrote " ++ argv.getD 2 ""], stderrLines := [],
      fileAccess := true }

/-- Sample document holding one item and one attackitem element. -/
def sampleDocItems : XNodes :=
  XNodes.cons (XNode.elem "item" [] XNodes.nil)
    (XNodes.cons (XNode.elem "attackitem" [] XNodes.nil) XNodes.nil)

/-- Sample document holding one attackitem and one row element. -/
def sampleDocUnion : XNodes :=
  XNodes.cons (XNode.elem "attackitem" [] XNodes.nil)
    (XNodes.cons (XNode.elem "row" [] XNodes.nil) XNodes.nil)

/-- Sample document holding three request and two response elements. -/
def sampleDocPairs : XNodes :=
  XNodes.cons (XNode.elem "request" [] XNodes.nil)
    (XNodes.cons (XNode.elem "request" [] XNodes.nil)
    (XNodes.cons (XNode.elem "request" [] XNodes.nil)
    (XNodes.cons (XNode.elem "response" [] XNodes.nil)
    (XNodes.cons (XNode.elem "response" [] XNodes.nil) XNodes.nil))))

/-- C1: try_decode_base64 is a total function — every input yields a
decoded payload, no exception escapes — and whenever the returned kind is
raw (Base64 decoding failed) the returned text is the original input
unchanged. -/
theorem c1_raw_returns_input (s : String)
    (h : (try_decode_base64 s).2 = Kind.raw) :
    (try_decode_base64 s).1 = s := by
  unfold try_decode_base64 at h ⊢
  cases hb : b64decodeStr (String.mk (s.data.filter (fun c => !pyIsSpace c))) with
  | none => simp [hb]
  | some bs =>
    rw [hb] at h
    cases hu : utf8DecodeCp bs with
    | none => simp [hu] at h
    | some cps => simp [hu] at h

/-- Witness for C1 at a concrete undecodable input. -/
theorem c1_witness : (try_decode_base64 "!!!").1 = "!!!" :=
  c1_raw_returns_input "!!!" (by decide)

/-- C4 (amended): a wrong argument count prints the usage line to standard
output — not standard error — and exits with code 1 before any file
access; a successful run with exactly two positional arguments exits with
code 0 and prints the confirmation naming the output file to standard
output. -/
theorem c4_amended_thm (argv : List String) :
    (argv.length ≠ 3 → cliMain argv =
      { exitCode := 1, stdoutLines := [usageMsg], stderrLines := [], fileAccess := false })
    ∧ (argv.length = 3 → cliMain argv =
      { exitCode := 0, stdoutLines := ["Wrote " ++ argv.getD 2 ""], stderrLines := [],
        fileAccess := true }) := by
  constructor
  · intro h; simp [cliMain, h]
  · intro h; simp [cliMain, h]

/-- Counterexample for C4 as stated: with one argument the process exits 1,
but the usage line goes to standard output and nothing at all is written
to standard error. -/
theorem c4_counterexample :
    (cliMain ["burp_to_html_decode.py"]).exitCode = 1
    ∧ (cliMain ["burp_to_html_decode.py"]).stdoutLines = [usageMsg]
    ∧ (cliMain ["burp_to_html_decode.py"]).stderrLines = [] := by
  decide

/-- Witness for C4 (amended) at concrete argument vectors. -/
theorem c4_witness :
    cliMain ["burp_to_html_decode.py"] =
      { exitCode := 1, stdoutLines := [usageMsg], stderrLines := [], fileAccess := false }
    ∧ cliMain ["burp_to_html_decode.py", "in.xml", "out.html"] =
      { exitCode := 0, stdoutLines := ["Wrote out.html"], stderrLines := [], fileAccess := true } := by
  constructor
  · exact (c4_amended_thm _).1 (by decide)
  · exact ((c4_amended_thm _).2 (by decide)).trans (by decide)

/-- C5: the first non-empty strategy wins — when any item element exists
the extraction is exactly the list of item elements, and otherwise the
extraction is the concatenation of all attackitem, then row, then
requestitem matches (a union, not a fallback chain) whenever that union is
non-empty. -/
theorem c5_thm (doc : XNodes) :
    ((findAllNodes "item" doc).isEmpty = false →
      extractItems doc = Extraction.items (findAllNodes "item" doc))
    ∧ ((findAllNodes "item" doc).isEmpty = true →
      ((findAllNodes "attackitem" doc ++ findAllNodes "row" doc) ++
        findAllNodes "requestitem" doc).isEmpty = false →
      extractItems doc = Extraction.items
        ((findAllNodes "attackitem" doc ++ findAllNodes "row" doc) ++
          findAllNodes "requestitem" doc)) := by
  constructor
  · intro h; unfold extractItems; rw [if_neg (fun hc => by rw [hc] at h; exact Bool.noConfusion h)]
  · intro h1 h2; unfold extractItems; rw [if_pos h1, if_neg (fun hc => by rw [hc] at h2; exact Bool.noConfusion h2)]

/-- Witness for C5: a document holding both an item and an attackitem is
reported from the item alone, and a document holding an attackitem and a
row contributes both, in that order. -/
theorem c5_witness :
    extractItems sampleDocItems = Extraction.items [XNode.elem "item" [] XNodes.nil]
    ∧ extractItems sampleDocUnion
      = Extraction.items [XNode.elem "attackitem" [] XNodes.nil, XNode.elem "row" [] XNodes.nil] := by
  constructor
  · exact ((c5_thm sampleDocItems).1 rfl).trans rfl
  · exact ((c5_thm sampleDocUnion).2 rfl rfl).trans rfl

/-- C6: with no recognized item containers, extraction pairs the i-th
request element with the i-th response element in document order, and the
number of synthesized entries is exactly the minimum of the two counts. -/
theorem c6_thm (doc : XNodes)
    (h1 : (findAllNodes "item" doc).isEmpty = true)
    (h2 : ((findAllNodes "attackitem" doc ++ findAllNodes "row" doc) ++
      findAllNodes "requestitem" doc).isEmpty = true)
    (h3 : ((findAllNodes "request" doc).zip (findAllNodes "response" doc)).isEmpty = false) :
    extractItems doc =
      Extraction.paired ((findAllNodes "request" doc).zip (findAllNodes "response" doc))
    ∧ ((findAllNodes "request" doc).zip (findAllNodes "response" doc)).length
      = min (findAllNodes "request" doc).length (findAllNodes "response" doc).length := by
  constructor
  · unfold extractItems; rw [if_pos h1, if_pos h2, if_neg (fun hc => by rw [hc] at h3; exact Bool.noConfusion h3)]
  · exact List.length_zip _ _

/-- Witness for C6: three request elements and two response elements yield
exactly two synthesized paired entries. -/
theorem c6_witness :
    extractItems sampleDocPairs
      = Extraction.paired
          [(XNode.elem "request" [] XNodes.nil, XNode.elem "response" [] XNodes.nil),
           (XNode.elem "request" [] XNodes.nil, XNode.elem "response" [] XNodes.nil)]
    ∧ ((findAllNodes "request" sampleDocPairs).zip
        (findAllNodes "response" sampleDocPairs)).length = 2 := by
  constructor
  · exact ((c6_thm sampleDocPairs rfl rfl rfl).1).trans rfl
  · exact ((c6_thm sampleDocPairs rfl rfl rfl).2).trans rfl

/-- C9: the eight-character input AAAA=AAA — entirely Base64-alphabet,
length a multiple of four, character ratio 1 — passes the heuristic
classifier while strict decoding fails, so a node carrying it with no
encoding declaration is extracted as the original text with the raw kind
and its rendered block carries a raw badge. -/
theorem c9_thm :
    is_likely_base64 "AAAA=AAA" = true
    ∧ b64decodeStr "AAAA=AAA" = none
    ∧ getAttr "encoding"
        (XNode.elem "request" [] (XNodes.cons (XNode.text "AAAA=AAA") XNodes.nil)) = none
    ∧ extract_node_text
        (some (XNode.elem "request" [] (XNodes.cons (XNode.text "AAAA=AAA") XNodes.nil)))
        = (some "AAAA=AAA", some Kind.raw)
    ∧ (add_block "Request"
        (some (XNode.elem "request" [] (XNodes.cons (XNode.text "AAAA=AAA") XNodes.nil)))).map
        Block.badge = some (some "raw") := by
  decide

/-- C10: decoding the empty string or any whitespace-only string succeeds
with the empty text (strict decoding of the empty cleaned input yields zero
bytes, which decode to the empty string), and a request node declaring
encoding base64 with no content is extracted as empty text and rendered
with no badge. -/
theorem c10_thm (s : String) (h : ∀ c ∈ s.data, pyIsSpace c = true) :
    try_decode_base64 s = ("", Kind.text)
    ∧ extract_node_text (some (XNode.elem "request" [("encoding", "base64")] XNodes.nil))
        = (some "", some Kind.text)
    ∧ (add_block "Request"
        (some (XNode.elem "request" [("encoding", "base64")] XNodes.nil))).map Block.badge
        = some none := by
  refine ⟨?_, by decide, by decide⟩
  have hf : s.data.filter (fun c => !pyIsSpace c) = [] := by
    rw [List.filter_eq_nil_iff]
    intro a ha
    simp [h a ha]
  unfold try_decode_base64
  rw [hf]
  rfl

/-- Witness for C10 at the empty string and at a whitespace-only string. -/
theorem c10_witness :
    try_decode_base64 "" = ("", Kind.text)
    ∧ try_decode_base64 " \r\n\t " = ("", Kind.text) := by
  constructor
  · exact (c10_thm "" (by decide)).1
  · exact (c10_thm " \r\n\t " (by decide)).1

/-- Counterexample for C2 as stated: ten leading spaces followed by eight
alphabet characters pass rules 1 to 3 on the trimmed form, the ratio over
the original untrimmed string is 8/18 and does not exceed 0.9, yet the
classifier accepts, because the source computes the ratio over the
reassigned stripped string. -/
theorem c2_counterexample :
    is_likely_base64 "          AAAAAAAA" = true
    ∧ 8 ≤ (stripChars ("          AAAAAAAA").data).length
    ∧ (∀ c ∈ stripChars ("          AAAAAAAA").data, (isB64Char c || pyIsSpace c) = true)
    ∧ (("          AAAAAAAA").data.filter
        (fun c => !(c == ' ' || c == '\r' || c == '\n'))).length % 4 = 0
    ∧ 10 * (("          AAAAAAAA").data.filter isB64Char).length
        ≤ 9 * ("          AAAAAAAA").data.length := by
  decide

/-- C2 (amended): for every input whose trimmed form passes rules 1 to 3,
the classifier returns true exactly when the number of strict
Base64-alphabet characters exceeds 0.9 of the length of the trimmed
string — the denominator is the stripped length, not the original
untrimmed length. -/
theorem c2_amended_thm (s : String)
    (h1 : (stripChars s.data).isEmpty = false)
    (h2 : ¬ (stripChars s.data).length < 8)
    (h3 : (stripChars s.data).all (fun c => isB64Char c || pyIsSpace c) = true)
    (h4 : ((stripChars s.data).filter (fun c => !(c == '\n' || c == '\r'))).length % 4 = 0) :
    is_likely_base64 s = true ↔
      10 * ((stripChars s.data).filter isB64Char).length
        > 9 * max 1 (stripChars s.data).length := by
  unfold is_likely_base64
  rw [if_neg (fun hc => by rw [hc] at h1; exact Bool.noConfusion h1), if_neg h2,
      if_pos (by rw [h3, h4]; rfl)]
  exact decide_eq_true_iff

/-- Witness for C2 (amended) at a concrete Base64 string. -/
theorem c2_witness : is_likely_base64 "aGVsbG8=" = true :=
  (c2_amended_thm "aGVsbG8=" (by decide) (by decide) (by decide) (by decide)).mpr (by decide)

/-- Counterexample for C3 as stated: thirty-nine alphabet characters with
one interior space are accepted by the classifier — the length checked for
divisibility by four is 40, spaces included, because the source removes
only LF and CR — while the whitespace-free length 39 is not a multiple of
four. -/
theorem c3_counterexample :
    is_likely_base64 "AAAAAAAAAAAAAAAAAAAA AAAAAAAAAAAAAAAAAAA" = true
    ∧ (("AAAAAAAAAAAAAAAAAAAA AAAAAAAAAAAAAAAAAAA").data.filter
        (fun c => !(c == ' ' || c == '\r' || c == '\n'))).length % 4 = 3 := by
  decide

/-- C3 (amended): the classifier returns true only if the length of the
trimmed string after removing LF and CR characters — interior spaces
retained and counted — is a multiple of four. -/
theorem c3_amended_thm (s : String) (h : is_likely_base64 s = true) :
    ((stripChars s.data).filter (fun c => !(c == '\n' || c == '\r'))).length % 4 = 0 := by
  unfold is_likely_base64 at h
  by_cases h1 : (stripChars s.data).isEmpty = true
  · rw [if_pos h1] at h; exact Bool.noConfusion h
  · rw [if_neg h1] at h
    by_cases h2 : (stripChars s.data).length < 8
    · rw [if_pos h2] at h; exact Bool.noConfusion h
    · rw [if_neg h2] at h
      by_cases h3 : ((stripChars s.data).all (fun c => isB64Char c || pyIsSpace c)
          && (((stripChars s.data).filter
              (fun c => !(c == '\n' || c == '\r'))).length % 4 == 0)) = true
      · have hb := ((Bool.and_eq_true _ _).mp h3).2
        simpa using hb
      · rw [if_neg h3] at h; exact Bool.noConfusion h

/-- Witness for C3 (amended) at a concrete accepted string. -/
theorem c3_witness :
    ((stripChars ("aGVsbG8=").data).filter
      (fun c => !(c == '\n' || c == '\r'))).length % 4 = 0 :=
  c3_amended_thm "aGVsbG8=" (by decide)

/-- Entity reading passes a head character other than an ampersand through
unchanged. -/
theorem unescapeEnt_cons_of_ne (c : Char) (h : ¬ c = '&') (l : List Char) :
    unescapeEnt (c :: l) = c :: unescapeEnt l := by
  rw [unescapeEnt.eq_def]
  split <;> simp_all

/-- Characters needing no substitution are serialized as themselves. -/
theorem escChar_eq_self (c : Char) (h1 : ¬ c = '&') (h2 : ¬ c = '<') (h3 : ¬ c = '>') :
    escChar c = [c] := by
  simp [escChar, h1, h2, h3]

/-- Reading the character data of an escaped payload recovers the payload
exactly. -/
theorem unescape_escape (l : List Char) : unescapeEnt (escapeMinimal l) = l := by
  induction l with
  | nil => rfl
  | cons c rest ih =>
    by_cases h1 : c = '&'
    · subst h1
      show '&' :: unescapeEnt (escapeMinimal rest) = '&' :: rest
      rw [ih]
    · by_cases h2 : c = '<'
      · subst h2
        show '<' :: unescapeEnt (escapeMinimal rest) = '<' :: rest
        rw [ih]
      · by_cases h3 : c = '>'
        · subst h3
          show '>' :: unescapeEnt (escapeMinimal rest) = '>' :: rest
          rw [ih]
        · rw [show escapeMinimal (c :: rest) = escChar c ++ escapeMinimal rest from rfl,
              escChar_eq_self c h1 h2 h3]
          show unescapeEnt (c :: escapeMinimal rest) = c :: rest
          rw [unescapeEnt_cons_of_ne c h1, ih]

/-- The serialization of one character never contains a raw less-than. -/
theorem escChar_no_lt (c : Char) : '<' ∉ escChar c := by
  unfold escChar
  split_ifs with h1 h2 h3 <;> simp_all
  exact fun hh => h2 hh.symm

/-- The serialization of one character never contains a raw greater-than. -/
theorem escChar_no_gt (c : Char) : '>' ∉ escChar c := by
  unfold escChar
  split_ifs with h1 h2 h3 <;> simp_all
  exact fun hh => h3 hh.symm

/-- Escaped payloads contain no raw less-than character, so payload content
cannot open a tag in the surrounding document. -/
theorem escape_no_lt (l : List Char) : '<' ∉ escapeMinimal l := by
  induction l with
  | nil => simp [escapeMinimal]
  | cons c rest ih =>
    intro hmem
    rcases List.mem_append.mp hmem with hm | hm
    · exact escChar_no_lt c hm
    · exact ih hm

/-- Escaped payloads contain no raw greater-than character. -/
theorem escape_no_gt (l : List Char) : '>' ∉ escapeMinimal l := by
  induction l with
  | nil => simp [escapeMinimal]
  | cons c rest ih =>
    intro hmem
    rcases List.mem_append.mp hmem with hm | hm
    · exact escChar_no_gt c hm
    · exact ih hm

/-- C8: every rendered block serializes its decoded payload only as escaped
character data — reading the preformatted content back as character data
recovers the payload verbatim, and the serialized payload contains no raw
angle bracket, so payload content cannot introduce or alter elements of the
surrounding document. -/
theorem c8_thm (titleText : String) (n : XNode) :
    ∃ b : Block, add_block titleText (some n) = some b
      ∧ unescapeEnt b.preHtml = ((extract_node_text (some n)).1.getD "").data
      ∧ '<' ∉ b.preHtml ∧ '>' ∉ b.preHtml := by
  refine ⟨_, rfl, ?_, ?_, ?_⟩
  · exact unescape_escape _
  · exact escape_no_lt _
  · exact escape_no_gt _

theorem b64digit_sextetChar : ∀ n, n < 64 → b64digit (sextetChar n) = some n := by decide

theorem sextetChar_ne_pad : ∀ n, n < 64 → ¬ sextetChar n = '=' := by decide

theorem sextetChar_not_space : ∀ n, n < 64 → pyIsSpace (sextetChar n) = false := by decide

theorem hexVal_hexDigitChar : ∀ n, n < 16 → hexVal (hexDigitChar n) = some n := by decide

theorem b64encodeBytes_eq (bs : List Nat) :
    b64encodeBytes bs = (bytesToSextets bs).map sextetChar ++ b64pad bs := by
  induction bs using b64encodeBytes.induct with
  | case1 x y z rest ih =>
    simp [b64encodeBytes, bytesToSextets, b64pad, ih]
  | case2 x y => simp [b64encodeBytes, bytesToSextets, b64pad]
  | case3 x => simp [b64encodeBytes, bytesToSextets, b64pad]
  | case4 => rfl

theorem bytesToSextets_lt (bs : List Nat) (h : ∀ x ∈ bs, x < 256) :
    ∀ v ∈ bytesToSextets bs, v < 64 := by
  induction bs using bytesToSextets.induct with
  | case1 x y z rest ih =>
    intro v hv
    have hx : x < 256 := h x (by simp)
    have hy : y < 256 := h y (by simp)
    have hz : z < 256 := h z (by simp)
    simp only [bytesToSextets, List.mem_cons] at hv
    rcases hv with rfl | rfl | rfl | rfl | hv
    · omega
    · omega
    · omega
    · omega
    · exact ih (fun u hu => h u (by simp [hu])) v hv
  | case2 x y =>
    intro v hv
    have hx : x < 256 := h x (by simp)
    have hy : y < 256 := h y (by simp)
    simp only [bytesToSextets, List.mem_cons, List.not_mem_nil, or_false] at hv
    rcases hv with rfl | rfl | rfl <;> omega
  | case3 x =>
    intro v hv
    have hx : x < 256 := h x (by simp)
    simp only [bytesToSextets, List.mem_cons, List.not_mem_nil, or_false] at hv
    rcases hv with rfl | rfl <;> omega
  | case4 =>
    intro v hv
    cases hv

theorem sextetsToBytes_bytesToSextets (bs : List Nat) (h : ∀ x ∈ bs, x < 256) :
    sextetsToBytes (bytesToSextets bs) = bs := by
  induction bs using bytesToSextets.induct with
  | case1 x y z rest ih =>
    have hx : x < 256 := h x (by simp)
    have hy : y < 256 := h y (by simp)
    have hz : z < 256 := h z (by simp)
    simp only [bytesToSextets, sextetsToBytes]
    refine List.cons_eq_cons.mpr ⟨by omega, List.cons_eq_cons.mpr ⟨by omega,
      List.cons_eq_cons.mpr ⟨by omega, ih (fun u hu => h u (by simp [hu]))⟩⟩⟩
  | case2 x y =>
    have hx : x < 256 := h x (by simp)
    have hy : y < 256 := h y (by simp)
    simp only [bytesToSextets, sextetsToBytes]
    refine List.cons_eq_cons.mpr ⟨by omega, List.cons_eq_cons.mpr ⟨by omega, rfl⟩⟩
  | case3 x =>
    have hx : x < 256 := h x (by simp)
    simp only [bytesToSextets, sextetsToBytes]
    refine List.cons_eq_cons.mpr ⟨by omega, rfl⟩
  | case4 => rfl

theorem mapOpt_map_sextetChar (l : List Nat) (h : ∀ v ∈ l, v < 64) :
    mapOpt b64digit (l.map sextetChar) = some l := by
  induction l with
  | nil => rfl
  | cons v rest ih =>
    simp only [List.map_cons, mapOpt, b64digit_sextetChar v (h v (by simp)),
      ih (fun u hu => h u (by simp [hu]))]

theorem takeWhile_append_of_all {p : Char → Bool} (l₁ l₂ : List Char)
    (h : ∀ a ∈ l₁, p a = true) :
    (l₁ ++ l₂).takeWhile p = l₁ ++ l₂.takeWhile p := by
  induction l₁ with
  | nil => rfl
  | cons a rest ih =>
    simp only [List.cons_append, List.takeWhile_cons, h a (by simp), if_true]
    rw [ih (fun b hb => h b (by simp [hb]))]

theorem dropWhile_append_of_all {p : Char → Bool} (l₁ l₂ : List Char)
    (h : ∀ a ∈ l₁, p a = true) :
    (l₁ ++ l₂).dropWhile p = l₂.dropWhile p := by
  induction l₁ with
  | nil => rfl
  | cons a rest ih =>
    simp only [List.cons_append, List.dropWhile_cons, h a (by simp), if_true]
    exact ih (fun b hb => h b (by simp [hb]))

theorem b64pad_shape (bs : List Nat) :
    b64pad bs = [] ∨ b64pad bs = ['='] ∨ b64pad bs = ['=', '='] := by
  induction bs using b64pad.induct with
  | case1 _ _ _ rest ih => simpa [b64pad] using ih
  | case2 _ _ => simp [b64pad]
  | case3 _ => simp [b64pad]
  | case4 => simp [b64pad]

theorem b64pad_takeWhile (bs : List Nat) :
    (b64pad bs).takeWhile (fun c => !(c == '=')) = [] := by
  rcases b64pad_shape bs with hp | hp | hp <;> rw [hp] <;> rfl

theorem b64pad_dropWhile (bs : List Nat) :
    (b64pad bs).dropWhile (fun c => !(c == '=')) = b64pad bs := by
  rcases b64pad_shape bs with hp | hp | hp <;> rw [hp] <;> rfl

theorem b64pad_all_pad (bs : List Nat) : (b64pad bs).all (fun c => c == '=') = true := by
  rcases b64pad_shape bs with hp | hp | hp <;> rw [hp] <;> rfl

theorem b64pad_length_le (bs : List Nat) : (b64pad bs).length ≤ 2 := by
  rcases b64pad_shape bs with hp | hp | hp <;> rw [hp] <;> simp

theorem b64encodeBytes_length_mod (bs : List Nat) :
    (b64encodeBytes bs).length % 4 = 0 := by
  induction bs using b64encodeBytes.induct with
  | case1 x y z rest ih => simp only [b64encodeBytes, List.length_cons]; omega
  | case2 x y => simp [b64encodeBytes]
  | case3 x => simp [b64encodeBytes]
  | case4 => rfl

theorem parseB64_encode (bs : List Nat) (h : ∀ x ∈ bs, x < 256) :
    parseB64 (b64encodeBytes bs) = some (bytesToSextets bs) := by
  have hlt := bytesToSextets_lt bs h
  have hne : ∀ a ∈ (bytesToSextets bs).map sextetChar, (fun c => !(c == '=')) a = true := by
    intro a ha
    rcases List.mem_map.mp ha with ⟨v, hv, rfl⟩
    simp [sextetChar_ne_pad v (hlt v hv)]
  have hlen : ((bytesToSextets bs).map sextetChar ++ b64pad bs).length % 4 = 0 := by
    rw [← b64encodeBytes_eq]; exact b64encodeBytes_length_mod bs
  unfold parseB64
  rw [b64encodeBytes_eq bs, takeWhile_append_of_all _ _ hne, dropWhile_append_of_all _ _ hne,
      b64pad_takeWhile, b64pad_dropWhile, List.append_nil]
  rw [if_pos ⟨b64pad_all_pad bs, b64pad_length_le bs, hlen⟩]
  exact mapOpt_map_sextetChar _ hlt

theorem b64decodeStr_encode (bs : List Nat) (h : ∀ x ∈ bs, x < 256) :
    b64decodeStr (b64encode bs) = some bs := by
  show (parseB64 (b64encodeBytes bs)).map sextetsToBytes = some bs
  rw [parseB64_encode bs h]
  simp [sextetsToBytes_bytesToSextets bs h]

theorem b64encodeBytes_no_space (bs : List Nat) (h : ∀ x ∈ bs, x < 256) :
    (b64encodeBytes bs).filter (fun c => !pyIsSpace c) = b64encodeBytes bs := by
  rw [List.filter_eq_self]
  intro a ha
  rw [b64encodeBytes_eq] at ha
  rcases List.mem_append.mp ha with hm | hm
  · rcases List.mem_map.mp hm with ⟨v, hv, rfl⟩
    simp [sextetChar_not_space v (bytesToSextets_lt bs h v hv)]
  · have ha' : a = '=' := by
      rcases b64pad_shape bs with hp | hp | hp <;> rw [hp] at hm <;> simp_all
    subst ha'
    decide

theorem hexCharsToBytes_bytesToHexChars (bs : List Nat) (h : ∀ x ∈ bs, x < 256) :
    hexCharsToBytes (bytesToHexChars bs) = some bs := by
  induction bs with
  | nil => rfl
  | cons b rest ih =>
    have hb : b < 256 := h b (by simp)
    simp only [bytesToHexChars, hexCharsToBytes, hexVal_hexDigitChar (b / 16) (by omega),
      hexVal_hexDigitChar (b % 16) (by omega), ih (fun u hu => h u (by simp [hu]))]
    have hbb : b / 16 * 16 + b % 16 = b := by omega
    rw [hbb]

/-- C7: decoding the standard Base64 encoding of any byte sequence
recovers the bytes — when they are valid UTF-8 the payload is the decoded
text with the text kind, and otherwise the payload is the lowercase hex of
the bytes with the hex kind, and that hex string parses back to exactly
the original bytes. -/
theorem c7_thm (b : List Nat) (hb : ∀ x ∈ b, x < 256) :
    (∀ cps, utf8DecodeCp b = some cps →
        try_decode_base64 (b64encode b) = (String.mk (cps.map Char.ofNat), Kind.text))
    ∧ (utf8DecodeCp b = none →
        try_decode_base64 (b64encode b) = (bytesToHex b, Kind.hex)
        ∧ hexToBytes (bytesToHex b) = some b) := by
  have hdec : b64decodeStr (String.mk ((b64encode b).data.filter (fun c => !pyIsSpace c)))
      = some b := by
    show b64decodeStr (String.mk ((b64encodeBytes b).filter (fun c => !pyIsSpace c))) = some b
    rw [b64encodeBytes_no_space b hb]
    exact b64decodeStr_encode b hb
  constructor
  · intro cps hcps
    unfold try_decode_base64
    simp only [hdec, hcps]
  · intro hnone
    refine ⟨?_, hexCharsToBytes_bytesToHexChars b hb⟩
    unfold try_decode_base64
    simp only [hdec, hnone]

/-- Witness for C7 at the bytes of hello (valid UTF-8) and at a lone 0xFF
byte (invalid UTF-8). -/
theorem c7_witness :
    try_decode_base64 (b64encode [104, 101, 108, 108, 111]) = ("hello", Kind.text)
    ∧ try_decode_base64 (b64encode [255]) = ("ff", Kind.hex)
    ∧ hexToBytes "ff" = some [255] := by
  refine ⟨?_, ?_, ?_⟩
  · exact ((c7_thm [104, 101, 108, 108, 111] (by decide)).1
      [104, 101, 108, 108, 111] (by decide)).trans (by decide)
  · exact (((c7_thm [255] (by decide)).2 (by decide)).1).trans (by decide)
  · exact (by decide : hexToBytes "ff" = some [255])
